import Mathlib

/-!
Verification of the Nand2Tetris VM-to-assembly translator
(src/projects/08/VMTranslator.py, src/projects/07/vm_translator.py).

Part 1: shallow embedding of the project-08 translator.  Python dictionary
lookups that may fail with KeyError / implicit None returns are modelled with
Option; a `none` result models a crash of the Python process.

Part 2: a small operational model of the target Hack machine (A register,
D register, RAM) used to prove semantic claims about the emitted assembly.
-/

set_option maxHeartbeats 1000000
set_option linter.unusedVariables false

namespace VM08

/-- Python `text.split('//')[0]`: the characters before the first `//`. -/
def beforeComment : List Char → List Char
  | [] => []
  | '/' :: '/' :: _ => []
  | c :: cs => c :: beforeComment cs

/-- Python's default `str.strip` whitespace test. -/
def isStripped (c : Char) : Bool :=
  c = ' ' || c = '\t' || c = '\n' || c = '\r' || c = '\x0b' || c = '\x0c'

/-- Python `str.strip()`: drop leading and trailing whitespace. -/
def pyStrip (cs : List Char) : List Char :=
  ((cs.dropWhile isStripped).reverse.dropWhile isStripped).reverse

/-- Python `str.split(' ')` (split at every single space). -/
def splitSpacesAux : List Char → List Char → List (List Char)
  | [], acc => [acc.reverse]
  | ' ' :: cs, acc => acc.reverse :: splitSpacesAux cs []
  | c :: cs, acc => splitSpacesAux cs (c :: acc)

def splitSpaces (cs : List Char) : List (List Char) :=
  splitSpacesAux cs []

/-- One VM source line, as wrapped by the Python class VMCommand. -/
structure VMCommand where
  raw_text : String
deriving DecidableEq, Repr

/-- Python: `self.text = text.split('//')[0].strip()`. -/
def VMCommand.text (c : VMCommand) : String :=
  ⟨pyStrip (beforeComment c.raw_text.data)⟩

/-- Python: `self.parts = self.text.split(' ')`. -/
def VMCommand.parts (c : VMCommand) : List String :=
  (splitSpaces c.text.data).map fun cs => ⟨cs⟩

/-- Python: `self.parts[0]` (split always yields at least one part). -/
def VMCommand.operation (c : VMCommand) : String :=
  c.parts.headD ""

def VMCommand.is_function_declaration_command (c : VMCommand) : Bool :=
  c.operation == "function"

def VMCommand.is_call_command (c : VMCommand) : Bool :=
  c.operation == "call"

def VMCommand.is_return_command (c : VMCommand) : Bool :=
  c.operation == "return"

def VMCommand.is_function_command (c : VMCommand) : Bool :=
  c.is_function_declaration_command || c.is_call_command || c.is_return_command

def VMCommand.is_goto_command (c : VMCommand) : Bool :=
  c.operation == "goto"

def VMCommand.is_ifgoto_command (c : VMCommand) : Bool :=
  c.operation == "if-goto"

def VMCommand.is_label_command (c : VMCommand) : Bool :=
  c.operation == "label"

def VMCommand.is_branching_command (c : VMCommand) : Bool :=
  c.is_goto_command || c.is_label_command || c.is_ifgoto_command

def VMCommand.is_pushpop_command (c : VMCommand) : Bool :=
  c.operation == "push" || c.operation == "pop"

/-- Python: `self.raw_text[0:2] == '//'`. -/
def VMCommand.is_comment (c : VMCommand) : Bool :=
  c.raw_text.data.take 2 == ['/', '/']

/-- Python: `self.raw_text == '\n'`. -/
def VMCommand.is_whitespace (c : VMCommand) : Bool :=
  c.raw_text == "\n"

/-- Python: `self.raw_text == ''`. -/
def VMCommand.is_empty (c : VMCommand) : Bool :=
  c.raw_text == ""

/-- Python `label`: parts[1] for branching commands, None otherwise. -/
def VMCommand.label (c : VMCommand) : Option String :=
  if c.is_branching_command then c.parts[1]? else none

/-- Python `function_name`: parts[1] for function/call commands, None otherwise. -/
def VMCommand.function_name (c : VMCommand) : Option String :=
  if c.is_function_declaration_command || c.is_call_command then c.parts[1]? else none

/-- Python `arguments`: parts[2] for call commands, None otherwise. -/
def VMCommand.arguments (c : VMCommand) : Option String :=
  if c.is_call_command then c.parts[2]? else none

/-- Python `locals`: parts[2] for function declarations, None otherwise. -/
def VMCommand.locals (c : VMCommand) : Option String :=
  if c.is_function_declaration_command then c.parts[2]? else none

/-- Python `segment`: None unless the command has exactly three parts. -/
def VMCommand.segment (c : VMCommand) : Option String :=
  if c.parts.length = 3 then c.parts[1]? else none

/-- Python `index`: None unless the command has exactly three parts. -/
def VMCommand.index (c : VMCommand) : Option String :=
  if c.parts.length = 3 then c.parts[2]? else none

/-- The per-kind comparison counters of VMArithmeticTranslator. -/
structure ArithState where
  eq : Nat
  lt : Nat
  gt : Nat
deriving DecidableEq, Repr

namespace VMArithmeticTranslator

/-- The OPERATION_INSTRUCTIONS dictionary (lookup may fail: KeyError). -/
def OPERATION_INSTRUCTIONS (op : String) : Option String :=
  if op = "add" then some "M=M+D"
  else if op = "sub" then some "M=M-D"
  else if op = "neg" then some "M=-M"
  else if op = "or" then some "M=M|D"
  else if op = "not" then some "M=!M"
  else if op = "and" then some "M=M&D"
  else none

/-- COMP_COMMANDS jump directives: the negation of each relation. -/
def jump_directive (op : String) : Option String :=
  if op = "eq" then some "JNE"
  else if op = "lt" then some "JGE"
  else if op = "gt" then some "JLE"
  else none

def pop_top_number_off_stack_instructions : List String :=
  ["@SP", "AM=M-1"]

def increment_stack_pointer_instructions : List String :=
  ["@SP", "M=M+1"]

/-- Read the per-kind counter (`self.comp_counters[command_text]`). -/
def count (st : ArithState) (op : String) : Option Nat :=
  if op = "eq" then some st.eq
  else if op = "lt" then some st.lt
  else if op = "gt" then some st.gt
  else none

/-- Write back the per-kind counter. -/
def setCount (st : ArithState) (op : String) (n : Nat) : ArithState :=
  if op = "eq" then { st with eq := n }
  else if op = "lt" then { st with lt := n }
  else if op = "gt" then { st with gt := n }
  else st

/-- Python `comp_translation`: bump the counter, mint labels, emit. -/
def comp_translation (st : ArithState) (op : String) :
    Option (ArithState × List String) :=
  match count st op, jump_directive op with
  | some c, some jd =>
    let cnt := c + 1
    let label_identifier : String := ⟨op.data.map Char.toUpper⟩ ++ toString cnt
    some (setCount st op cnt,
      pop_top_number_off_stack_instructions ++
      ["D=M"] ++
      pop_top_number_off_stack_instructions ++
      ["D=M-D",
       "@NOT_" ++ label_identifier,
       "D;" ++ jd,
       "@SP",
       "A=M",
       "M=-1",
       "@INC_STACK_POINTER_" ++ label_identifier,
       "0;JMP",
       "(NOT_" ++ label_identifier ++ ")",
       "@SP",
       "A=M",
       "M=0",
       "(INC_STACK_POINTER_" ++ label_identifier ++ ")"] ++
      increment_stack_pointer_instructions)
  | _, _ => none

/-- Python `arithmetic_translation`. -/
def arithmetic_translation (op : String) : Option (List String) :=
  if op = "add" ∨ op = "sub" ∨ op = "and" ∨ op = "or" then
    (OPERATION_INSTRUCTIONS op).map fun ins =>
      pop_top_number_off_stack_instructions ++ ["D=M"] ++
      pop_top_number_off_stack_instructions ++ [ins] ++
      increment_stack_pointer_instructions
  else
    (OPERATION_INSTRUCTIONS op).map fun ins =>
      pop_top_number_off_stack_instructions ++ [ins] ++
      increment_stack_pointer_instructions

/-- Python `translate` of VMArithmeticTranslator. -/
def translate (st : ArithState) (c : VMCommand) :
    Option (ArithState × List String) :=
  if c.text = "eq" ∨ c.text = "lt" ∨ c.text = "gt" then
    comp_translation st c.text
  else
    (arithmetic_translation c.text).map fun ls => (st, ls)

end VMArithmeticTranslator

namespace VMPushPopTranslator

/-- VIRTUAL_MEMORY_SEGMENTS base-address pointers. -/
def VIRTUAL_MEMORY_SEGMENTS (seg : String) : Option String :=
  if seg = "local" then some "1"
  else if seg = "argument" then some "2"
  else if seg = "this" then some "3"
  else if seg = "that" then some "4"
  else none

def POINTER_SEGMENT_BASE_ADDRESS : String := "3"

/-- HOST_SEGMENTS fixed base addresses (static is hard-coded to 16). -/
def HOST_SEGMENTS (seg : String) : Option String :=
  if seg = "temp" then some "5"
  else if seg = "static" then some "16"
  else none

def place_value_in_D_on_top_of_stack_instructions : List String :=
  ["@SP", "A=M", "M=D"]

def increment_stack_pointer_instructions : List String :=
  ["@SP", "M=M+1"]

def load_value_in_D_instructions (value : String) : List String :=
  ["@" ++ value, "D=A"]

def load_referenced_value_in_D_instructions (address : String) : List String :=
  ["@" ++ address, "D=M"]

def add_index_to_base_address_in_D_instructions (index : String) : List String :=
  ["@" ++ index, "D=D+A"]

def load_value_at_memory_address_in_D_instructions : List String :=
  ["A=D", "D=M"]

def set_target_address_to_value_instructions : List String :=
  ["@R5", "D=M", "@R6", "A=M", "M=D"]

def store_target_address_in_second_temp_register_instructions : List String :=
  ["@R6", "M=D"]

def store_top_of_stack_first_temp_register_instructions : List String :=
  ["@R5", "M=D"]

def store_top_of_stack_in_D_instructions : List String :=
  ["@SP", "AM=M-1", "D=M"]

/-- Python `load_base_address_instructions_for` (implicit None fallthrough). -/
def load_base_address_instructions_for (seg : String) : Option (List String) :=
  match VIRTUAL_MEMORY_SEGMENTS seg with
  | some p => some (load_referenced_value_in_D_instructions p)
  | none =>
    match HOST_SEGMENTS seg with
    | some b => some (load_value_in_D_instructions b)
    | none =>
      if seg = "pointer" then
        some (load_value_in_D_instructions POINTER_SEGMENT_BASE_ADDRESS)
      else none

/-- Python `load_desired_value_into_D_instructions_for`. -/
def load_desired_value_into_D_instructions_for (seg idx : String) :
    Option (List String) :=
  if seg = "constant" then some (load_value_in_D_instructions idx)
  else
    (load_base_address_instructions_for seg).map fun base =>
      base ++ add_index_to_base_address_in_D_instructions idx ++
      load_value_at_memory_address_in_D_instructions

/-- Python `translate` of VMPushPopTranslator (push branch / pop branch). -/
def translate (c : VMCommand) : Option (List String) :=
  match c.segment, c.index with
  | some seg, some idx =>
    if c.operation = "push" then
      (load_desired_value_into_D_instructions_for seg idx).map fun ls =>
        ls ++ place_value_in_D_on_top_of_stack_instructions ++
        increment_stack_pointer_instructions
    else
      (load_base_address_instructions_for seg).map fun base =>
        store_top_of_stack_in_D_instructions ++
        store_top_of_stack_first_temp_register_instructions ++
        base ++
        add_index_to_base_address_in_D_instructions idx ++
        store_target_address_in_second_temp_register_instructions ++
        set_target_address_to_value_instructions
  | _, _ => none

end VMPushPopTranslator

namespace VMBranchingTranslator

/-- Python `translate` of VMBranchingTranslator: no mangling of names. -/
def translate (c : VMCommand) : Option (List String) :=
  if c.is_label_command then
    (c.label).map fun l => ["(" ++ l ++ ")"]
  else if c.is_goto_command then
    (c.label).map fun l => ["@" ++ l, "0;JMP"]
  else if c.is_ifgoto_command then
    (c.label).map fun l => ["@SP", "AM=M-1", "D=M", "@" ++ l, "D;JNE"]
  else none

end VMBranchingTranslator

/-- The function/call counters of VMFunctionTranslator. -/
structure FuncState where
  function_count : Nat
  call_count : Nat
deriving DecidableEq, Repr

namespace VMFunctionTranslator

/-- The emission of the `return` branch of VMFunctionTranslator.translate. -/
def return_translation : List String :=
  ["@LCL", "D=M",
   "@R5", "M=D",
   "@5", "D=A", "@R5", "A=M-D", "D=M", "@R6", "M=D",
   "@SP", "AM=M-1", "D=M", "@ARG", "A=M", "M=D",
   "@ARG", "D=M+1", "@SP", "M=D",
   "@1", "D=A", "@R5", "A=M-D", "D=M", "@THAT", "M=D",
   "@2", "D=A", "@R5", "A=M-D", "D=M", "@THIS", "M=D",
   "@3", "D=A", "@R5", "A=M-D", "D=M", "@ARG", "M=D",
   "@4", "D=A", "@R5", "A=M-D", "D=M", "@LCL", "M=D",
   "@R6", "A=M", "0;JMP"]

/-- Python `translate` of VMFunctionTranslator. -/
def translate (st : FuncState) (c : VMCommand) :
    Option (FuncState × List String) :=
  if c.is_function_declaration_command then
    match c.function_name, c.locals with
    | some name, some locs =>
      let fc := st.function_count + 1
      some ({ st with function_count := fc },
        ["(" ++ name ++ ")",
         "@" ++ locs,
         "D=A",
         "(LOOP.ADD_LOCALS." ++ toString fc ++ ")",
         "@SP",
         "A=M",
         "M=0",
         "@SP",
         "M=M+1",
         "D=D-1",
         "@LOOP.ADD_LOCALS." ++ toString fc,
         "D;JNE"])
    | _, _ => none
  else if c.is_call_command then
    some ({ st with call_count := st.call_count + 1 }, ["call"])
  else if c.is_return_command then
    some (st, return_translation)
  else none

end VMFunctionTranslator

/-- Combined per-file translator state (one instance of each translator class;
in the Python driver all four are constructed afresh for every input file). -/
structure TransContext where
  arith : ArithState
  func : FuncState
deriving DecidableEq, Repr

def initContext : TransContext := ⟨⟨0, 0, 0⟩, ⟨0, 0⟩⟩

/-- Python `has_valid_current_command` of VMParser. -/
def has_valid_current_command (c : VMCommand) : Bool :=
  !c.is_whitespace && !c.is_comment

/-- The dispatch in `__main__`: push/pop, branching, function, else arithmetic. -/
def dispatch (ts : TransContext) (c : VMCommand) :
    Option (TransContext × List String) :=
  if c.is_pushpop_command then
    (VMPushPopTranslator.translate c).map fun ls => (ts, ls)
  else if c.is_branching_command then
    (VMBranchingTranslator.translate c).map fun ls => (ts, ls)
  else if c.is_function_command then
    (VMFunctionTranslator.translate ts.func c).map fun p =>
      ({ ts with func := p.1 }, p.2)
  else
    (VMArithmeticTranslator.translate ts.arith c).map fun p =>
      ({ ts with arith := p.1 }, p.2)

/-- The `__main__` per-file loop: every line the parser yields is wrapped in a
VMCommand; valid (non-blank non-comment) ones are dispatched and their
emissions concatenated.  A `none` result models a Python crash. -/
def processLines (ts : TransContext) : List String → Option (TransContext × List String)
  | [] => some (ts, [])
  | l :: rest =>
    let c : VMCommand := ⟨l⟩
    if has_valid_current_command c then
      match dispatch ts c with
      | none => none
      | some (ts', out) =>
        (processLines ts' rest).map fun p => (p.1, out ++ p.2)
    else
      processLines ts rest

/-- The parser's do-while loop runs once even on an empty file (the first
`readline` returns "" and that command is still processed). -/
def parserLines (lines : List String) : List String :=
  if lines = [] then [""] else lines

/-- Translation of a single .vm file, with fresh translators. -/
def translateFile (lines : List String) : Option (List String) :=
  (processLines initContext (parserLines lines)).map (·.2)

/-- Python `input.split('.')[0]`: the characters before the first dot. -/
def beforeDot : List Char → List Char
  | [] => []
  | '.' :: _ => []
  | c :: cs => c :: beforeDot cs

/-- Python `_output_file_name_from`: `input_file.split('.')[0] + '.asm'`. -/
def output_file_name_from (input : String) : String :=
  (⟨beforeDot input.data⟩ : String) ++ ".asm"

/-- Directory mode of `__main__`: each .vm file gets its own writer and its
own freshly constructed translators; no bootstrap lines are ever emitted. -/
def translateDirectory (files : List (String × List String)) :
    Option (List (String × List String)) :=
  files.mapM fun f =>
    (translateFile f.2).map fun out => (output_file_name_from f.1, out)

end VM08

/-!
Part 2: operational model of the target Hack machine.

This is the verification apparatus (the semantics of the assembly the
translator emits), not a translation of the Python source.  Registers and RAM
cells hold mathematical integers, the standard idealisation of the
Nand2Tetris word.  A C-instruction with destination AM writes M at the old
value of A, as the Hack CPU does.
-/

namespace Hack

/-- An A-instruction argument: numeric literal or symbol. -/
inductive AArg where
  | num (n : Nat)
  | sym (cs : List Char)
deriving DecidableEq, Repr

/-- Destinations emitted by the translator. -/
inductive Dst where
  | nodest | M | D | A | AM
deriving DecidableEq, Repr

/-- Computations emitted by the translator. -/
inductive Cmp where
  | c0 | cNeg1 | cD | cA | cM | cNotM | cNegM
  | cMplus1 | cMminus1 | cDminus1 | cDplusA
  | cMplusD | cMminusD | cMorD | cMandD
deriving DecidableEq, Repr

/-- Jump directives emitted by the translator. -/
inductive Jmp where
  | jnull | JMP | JNE | JGE | JLE
deriving DecidableEq, Repr

/-- A decoded Hack instruction (A-instruction, C-instruction, or label). -/
inductive Instr where
  | Ains (a : AArg)
  | Cins (d : Dst) (c : Cmp) (j : Jmp)
  | Lins (cs : List Char)
deriving DecidableEq, Repr

/-- Accumulating decimal-digit parser. -/
def digitsValGo : List Char → Nat → Option Nat
  | [], acc => some acc
  | c :: cs, acc =>
    if c.isDigit then digitsValGo cs (10 * acc + (c.toNat - 48)) else none

/-- Value of a non-empty all-digit character list. -/
def digitsVal : List Char → Option Nat
  | [] => none
  | c :: cs => if c.isDigit then digitsValGo cs (c.toNat - 48) else none

/-- Decode a C-instruction from its characters (the finite set of forms the
translator emits). -/
def decodeC (cs : List Char) : Option Instr :=
  if cs = "AM=M-1".data then some (.Cins .AM .cMminus1 .jnull)
  else if cs = "A=M".data then some (.Cins .A .cM .jnull)
  else if cs = "A=D".data then some (.Cins .A .cD .jnull)
  else if cs = "A=M-1".data then some (.Cins .A .cMminus1 .jnull)
  else if cs = "A=M-D".data then some (.Cins .A .cMminusD .jnull)
  else if cs = "A=A+D".data then some (.Cins .A .cDplusA .jnull)
  else if cs = "D=M".data then some (.Cins .D .cM .jnull)
  else if cs = "D=A".data then some (.Cins .D .cA .jnull)
  else if cs = "D=M-D".data then some (.Cins .D .cMminusD .jnull)
  else if cs = "D=M+1".data then some (.Cins .D .cMplus1 .jnull)
  else if cs = "D=D-1".data then some (.Cins .D .cDminus1 .jnull)
  else if cs = "D=D+A".data then some (.Cins .D .cDplusA .jnull)
  else if cs = "D=A+D".data then some (.Cins .D .cDplusA .jnull)
  else if cs = "M=D".data then some (.Cins .M .cD .jnull)
  else if cs = "M=M+1".data then some (.Cins .M .cMplus1 .jnull)
  else if cs = "M=M+D".data then some (.Cins .M .cMplusD .jnull)
  else if cs = "M=M-D".data then some (.Cins .M .cMminusD .jnull)
  else if cs = "M=-M".data then some (.Cins .M .cNegM .jnull)
  else if cs = "M=!M".data then some (.Cins .M .cNotM .jnull)
  else if cs = "M=M|D".data then some (.Cins .M .cMorD .jnull)
  else if cs = "M=M&D".data then some (.Cins .M .cMandD .jnull)
  else if cs = "M=-1".data then some (.Cins .M .cNeg1 .jnull)
  else if cs = "M=0".data then some (.Cins .M .c0 .jnull)
  else if cs = "D;JNE".data then some (.Cins .nodest .cD .JNE)
  else if cs = "D;JGE".data then some (.Cins .nodest .cD .JGE)
  else if cs = "D;JLE".data then some (.Cins .nodest .cD .JLE)
  else if cs = "0;JMP".data then some (.Cins .nodest .c0 .JMP)
  else none

/-- Decode one assembly line from its characters. -/
def decodeChars : List Char → Option Instr
  | '@' :: cs =>
    match digitsVal cs with
    | some n => some (.Ains (.num n))
    | none => some (.Ains (.sym cs))
  | '(' :: cs => some (.Lins cs.dropLast)
  | cs => decodeC cs

/-- Decode one assembly line. -/
def decode (s : String) : Option Instr :=
  decodeChars s.data

/-- Decode a whole emitted program. -/
def decodeLines : List String → Option (List Instr)
  | [] => some []
  | s :: rest =>
    match decode s, decodeLines rest with
    | some i, some is => some (i :: is)
    | _, _ => none

/-- The assembler's pre-defined symbols used by the translator. -/
def predefSym (cs : List Char) : Option Nat :=
  if cs = "SP".data then some 0
  else if cs = "LCL".data then some 1
  else if cs = "ARG".data then some 2
  else if cs = "THIS".data then some 3
  else if cs = "THAT".data then some 4
  else if cs = "R5".data then some 5
  else if cs = "R6".data then some 6
  else if cs = "R13".data then some 13
  else if cs = "R14".data then some 14
  else if cs = "R15".data then some 15
  else none

/-- Machine state: A register, D register, RAM. -/
structure Mach where
  A : Int
  D : Int
  ram : Nat → Int

/-- RAM write. -/
def wr (r : Nat → Int) (a : Nat) (v : Int) : Nat → Int :=
  fun x => if x = a then v else r x

/-- The M pseudo-register: RAM addressed by A. -/
def Mach.M (m : Mach) : Int := m.ram m.A.toNat

def cmpVal : Cmp → Mach → Int
  | .c0, _ => 0
  | .cNeg1, _ => -1
  | .cD, m => m.D
  | .cA, m => m.A
  | .cM, m => m.M
  | .cNotM, m => -(m.M) - 1
  | .cNegM, m => -(m.M)
  | .cMplus1, m => m.M + 1
  | .cMminus1, m => m.M - 1
  | .cDminus1, m => m.D - 1
  | .cDplusA, m => m.D + m.A
  | .cMplusD, m => m.M + m.D
  | .cMminusD, m => m.M - m.D
  | .cMorD, m => Int.lor m.M m.D
  | .cMandD, m => Int.land m.M m.D

/-- Destination write; M (also in AM) is written at the old A. -/
def applyDst : Dst → Int → Mach → Mach
  | .nodest, _, m => m
  | .M, v, m => { m with ram := wr m.ram m.A.toNat v }
  | .D, v, m => { m with D := v }
  | .A, v, m => { m with A := v }
  | .AM, v, m => { m with A := v, ram := wr m.ram m.A.toNat v }

def jmpTaken : Jmp → Int → Bool
  | .jnull, _ => false
  | .JMP, _ => true
  | .JNE, v => decide (v ≠ 0)
  | .JGE, v => decide (0 ≤ v)
  | .JLE, v => decide (v ≤ 0)

/-- Position of a label declaration in the program. -/
def labelIdx : List Instr → List Char → Option Nat
  | [], _ => none
  | .Lins cs' :: rest, cs =>
    if cs' = cs then some 0 else (labelIdx rest cs).map (· + 1)
  | .Ains _ :: rest, cs => (labelIdx rest cs).map (· + 1)
  | .Cins _ _ _ :: rest, cs => (labelIdx rest cs).map (· + 1)

/-- Resolve an A-instruction argument to a value. -/
def resolveA (p : List Instr) : AArg → Option Int
  | .num n => some (n : Int)
  | .sym cs =>
    match predefSym cs with
    | some n => some (n : Int)
    | none => (labelIdx p cs).map fun i => (i : Int)

/-- One machine step at program counter pc; `none` means halt/stuck. -/
def step (p : List Instr) (m : Mach) (pc : Nat) : Option (Mach × Nat) :=
  match p[pc]? with
  | none => none
  | some (.Lins _) => some (m, pc + 1)
  | some (.Ains a) => (resolveA p a).map fun v => ({ m with A := v }, pc + 1)
  | some (.Cins d c j) =>
    let v := cmpVal c m
    let m' := applyDst d v m
    if jmpTaken j v then some (m', m.A.toNat) else some (m', pc + 1)

/-- Fuelled execution; a stuck machine stays in place. -/
def run (p : List Instr) : Nat → Mach → Nat → Mach × Nat
  | 0, m, pc => (m, pc)
  | fuel + 1, m, pc =>
    match step p m pc with
    | none => (m, pc)
    | some (m', pc') => run p fuel m' pc'

end Hack

/-!
Part 3: helper lemmas connecting emitted strings to decoded programs.
-/

namespace Hack

theorem decodeLines_cons {s : String} {i : Instr} {rest : List String}
    {is : List Instr} (h : decode s = some i) (h2 : decodeLines rest = some is) :
    decodeLines (s :: rest) = some (i :: is) := by
  simp [decodeLines, h, h2]

theorem decodeLines_append {a b : List String} {ia ib : List Instr}
    (ha : decodeLines a = some ia) (hb : decodeLines b = some ib) :
    decodeLines (a ++ b) = some (ia ++ ib) := by
  induction a generalizing ia with
  | nil => simp [decodeLines] at ha; simp [ha, hb]
  | cons s rest ih =>
    simp only [decodeLines] at ha
    rcases hd : decode s with _ | i <;> rw [hd] at ha
    · exact absurd ha (by simp)
    · rcases hr : decodeLines rest with _ | is <;> rw [hr] at ha
      · exact absurd ha (by simp)
      · simp only [Option.some.injEq] at ha
        subst ha
        simpa [decodeLines, hd] using decodeLines_cons hd (ih hr)

/-- An A-instruction whose operand is a numeral decodes to a numeric load. -/
theorem decode_at_num (idx : String) (n : Nat) (h : digitsVal idx.data = some n) :
    decode ("@" ++ idx) = some (.Ains (.num n)) := by
  obtain ⟨cs⟩ := idx
  simp only [String.data] at h
  show decodeChars (('@' :: cs : List Char)) = _
  simp [decodeChars, h]

/-- A numeral is never one of the scratch-register symbols R13..R15. -/
theorem at_num_ne_scratch (idx : String) (n : Nat)
    (h : digitsVal idx.data = some n) :
    ("@" ++ idx) ≠ "@R13" ∧ ("@" ++ idx) ≠ "@R14" ∧ ("@" ++ idx) ≠ "@R15" := by
  obtain ⟨cs⟩ := idx
  simp only [String.data] at h
  refine ⟨?_, ?_, ?_⟩ <;>
  · intro contra
    have : ('@' :: cs : List Char) = _ := congrArg String.data contra
    simp only [List.cons.injEq] at this
    obtain ⟨-, rfl⟩ := this
    simp [digitsVal] at h

end Hack

/-!
Part 4: the claims.
-/

open VM08 Hack

/-- The decoded form of the emitted `return` sequence. -/
def returnProg : List Instr :=
  [.Ains (.sym ['L','C','L']), .Cins .D .cM .jnull,
   .Ains (.sym ['R','5']), .Cins .M .cD .jnull,
   .Ains (.num 5), .Cins .D .cA .jnull, .Ains (.sym ['R','5']), .Cins .A .cMminusD .jnull,
     .Cins .D .cM .jnull, .Ains (.sym ['R','6']), .Cins .M .cD .jnull,
   .Ains (.sym ['S','P']), .Cins .AM .cMminus1 .jnull, .Cins .D .cM .jnull,
     .Ains (.sym ['A','R','G']), .Cins .A .cM .jnull, .Cins .M .cD .jnull,
   .Ains (.sym ['A','R','G']), .Cins .D .cMplus1 .jnull, .Ains (.sym ['S','P']), .Cins .M .cD .jnull,
   .Ains (.num 1), .Cins .D .cA .jnull, .Ains (.sym ['R','5']), .Cins .A .cMminusD .jnull,
     .Cins .D .cM .jnull, .Ains (.sym ['T','H','A','T']), .Cins .M .cD .jnull,
   .Ains (.num 2), .Cins .D .cA .jnull, .Ains (.sym ['R','5']), .Cins .A .cMminusD .jnull,
     .Cins .D .cM .jnull, .Ains (.sym ['T','H','I','S']), .Cins .M .cD .jnull,
   .Ains (.num 3), .Cins .D .cA .jnull, .Ains (.sym ['R','5']), .Cins .A .cMminusD .jnull,
     .Cins .D .cM .jnull, .Ains (.sym ['A','R','G']), .Cins .M .cD .jnull,
   .Ains (.num 4), .Cins .D .cA .jnull, .Ains (.sym ['R','5']), .Cins .A .cMminusD .jnull,
     .Cins .D .cM .jnull, .Ains (.sym ['L','C','L']), .Cins .M .cD .jnull,
   .Ains (.sym ['R','6']), .Cins .A .cM .jnull, .Cins .nodest .c0 .JMP]

/-- C6: for every `return` command the translator emits `return_translation`,
which copies LCL into the scratch cell R5 (the FRAME variable), reads the
saved return address from RAM[FRAME-5] into the scratch cell R6 before
RAM[ARG] is written, writes the popped return value to RAM[ARG], sets
SP to ARG+1, restores THAT, THIS, ARG, LCL from RAM[FRAME-1]..RAM[FRAME-4],
and jumps to the saved return address.  The hypotheses allow the aliasing
case ARG = FRAME-5 (a zero-argument call), and the final program counter is
always the ORIGINAL content of RAM[FRAME-5], which proves that the read of
FRAME-5 precedes the write to RAM[ARG]. -/
theorem C6_return_frame_teardown (fst : FuncState) (ram : Nat → Int)
    (A0 D0 : Int) (sp lcl arg : Nat)
    (h1 : 12 ≤ lcl) (h2 : 7 ≤ arg) (h3 : arg + 5 ≤ lcl) (h4 : lcl < sp)
    (hsp : ram 0 = sp) (hlcl : ram 1 = lcl) (harg : ram 2 = arg) :
    VMFunctionTranslator.translate fst ⟨"return"⟩ =
      some (fst, VMFunctionTranslator.return_translation) ∧
    decodeLines VMFunctionTranslator.return_translation = some returnProg ∧
    (run returnProg 52 ⟨A0, D0, ram⟩ 0).1.ram 5 = lcl ∧
    (run returnProg 52 ⟨A0, D0, ram⟩ 0).1.ram 6 = ram (lcl - 5) ∧
    (run returnProg 52 ⟨A0, D0, ram⟩ 0).1.ram arg = ram (sp - 1) ∧
    (run returnProg 52 ⟨A0, D0, ram⟩ 0).1.ram 0 = arg + 1 ∧
    (run returnProg 52 ⟨A0, D0, ram⟩ 0).1.ram 4 = ram (lcl - 1) ∧
    (run returnProg 52 ⟨A0, D0, ram⟩ 0).1.ram 3 = ram (lcl - 2) ∧
    (run returnProg 52 ⟨A0, D0, ram⟩ 0).1.ram 2 = ram (lcl - 3) ∧
    (run returnProg 52 ⟨A0, D0, ram⟩ 0).1.ram 1 = ram (lcl - 4) ∧
    (run returnProg 52 ⟨A0, D0, ram⟩ 0).2 = (ram (lcl - 5)).toNat := by
  refine ⟨rfl, by decide, ?_⟩
  obtain ⟨g1, g2, g3, g4, g5, gsp, q1, q2, q3, q4, q5, q6, q7, q8, q9, q10, q11,
      r0, r1, r2, r3, r4, r5, r6, u1, u2, u3, u4,
      v1, v1b, v1c, v1d, v2, v2b, v2c, v2d, v2e, v3, v3b, v3c, v3d, v3e, v3f,
      v4, v4b, v4c, v4d, v4e, v4f, v4g⟩ :
      ((lcl : Int) - 1).toNat = lcl - 1 ∧ ((lcl : Int) - 2).toNat = lcl - 2 ∧
      ((lcl : Int) - 3).toNat = lcl - 3 ∧ ((lcl : Int) - 4).toNat = lcl - 4 ∧
      ((lcl : Int) - 5).toNat = lcl - 5 ∧ ((sp : Int) - 1).toNat = sp - 1 ∧
      (lcl - 5 ≠ 5) ∧ (sp - 1 ≠ 0) ∧ (sp - 1 ≠ 5) ∧ (sp - 1 ≠ 6) ∧
      ¬(2 = arg) ∧ ¬(5 = arg) ∧ ¬(6 = arg) ∧ ¬(0 = arg) ∧ ¬(1 = arg) ∧
      ¬(3 = arg) ∧ ¬(4 = arg) ∧
      arg ≠ 0 ∧ arg ≠ 1 ∧ arg ≠ 2 ∧ arg ≠ 3 ∧ arg ≠ 4 ∧ arg ≠ 5 ∧ arg ≠ 6 ∧
      (lcl - 1 ≠ arg) ∧ (lcl - 2 ≠ arg) ∧ (lcl - 3 ≠ arg) ∧ (lcl - 4 ≠ arg) ∧
      lcl - 1 ≠ 0 ∧ lcl - 1 ≠ 4 ∧ lcl - 1 ≠ 5 ∧ lcl - 1 ≠ 6 ∧
      lcl - 2 ≠ 0 ∧ lcl - 2 ≠ 3 ∧ lcl - 2 ≠ 4 ∧ lcl - 2 ≠ 5 ∧ lcl - 2 ≠ 6 ∧
      lcl - 3 ≠ 0 ∧ lcl - 3 ≠ 2 ∧ lcl - 3 ≠ 3 ∧ lcl - 3 ≠ 4 ∧ lcl - 3 ≠ 5 ∧
      lcl - 3 ≠ 6 ∧
      lcl - 4 ≠ 0 ∧ lcl - 4 ≠ 1 ∧ lcl - 4 ≠ 2 ∧ lcl - 4 ≠ 3 ∧ lcl - 4 ≠ 4 ∧
      lcl - 4 ≠ 5 ∧ lcl - 4 ≠ 6 := by omega
  generalize hres : run returnProg 52 ⟨A0, D0, ram⟩ 0 = res
  simp [run, step, resolveA, predefSym, labelIdx, cmpVal, applyDst, jmpTaken, wr, Mach.M,
    hsp, hlcl, harg, returnProg, g1, g2, g3, g4, g5, gsp,
    q1, q2, q3, q4, q5, q6, q7, q8, q9, q10, q11,
    r0, r1, r2, r3, r4, r5, r6, u1, u2, u3, u4,
    v1, v1b, v1c, v1d, v2, v2b, v2c, v2d, v2e, v3, v3b, v3c, v3d, v3e, v3f,
    v4, v4b, v4c, v4d, v4e, v4f, v4g] at hres
  subst hres
  refine ⟨?_, ?_, ?_, ?_, ?_, ?_, ?_, ?_, ?_⟩ <;>
    simp [wr, q5, q6, q7, q8, q9, q10, q11, r0, r1, r2, r3, r4, r5, r6,
      u1, u2, u3, u4, v1, v1b, v1c, v1d, v2, v2b, v2c, v2d, v2e,
      v3, v3b, v3c, v3d, v3e, v3f, v4, v4b, v4c, v4d, v4e, v4f, v4g, q1, q2, q3, q4]

/-- RAM contents for the C6 witness: a standard frame with ARG = LCL - 5,
the aliasing case produced by a call with zero arguments. -/
def retRam : Nat → Int :=
  fun a => if a = 0 then 13 else if a = 1 then 12 else if a = 2 then 7 else 100 + a

/-- C6 witness: concrete instance with lcl = 12, arg = 7 = lcl - 5, sp = 13. -/
theorem C6_return_frame_teardown_witness :
    VMFunctionTranslator.translate ⟨0, 0⟩ ⟨"return"⟩ =
      some (⟨0, 0⟩, VMFunctionTranslator.return_translation) ∧
    decodeLines VMFunctionTranslator.return_translation = some returnProg ∧
    (run returnProg 52 ⟨0, 0, retRam⟩ 0).1.ram 5 = 12 ∧
    (run returnProg 52 ⟨0, 0, retRam⟩ 0).1.ram 6 = retRam (12 - 5) ∧
    (run returnProg 52 ⟨0, 0, retRam⟩ 0).1.ram 7 = retRam (13 - 1) ∧
    (run returnProg 52 ⟨0, 0, retRam⟩ 0).1.ram 0 = 7 + 1 ∧
    (run returnProg 52 ⟨0, 0, retRam⟩ 0).1.ram 4 = retRam (12 - 1) ∧
    (run returnProg 52 ⟨0, 0, retRam⟩ 0).1.ram 3 = retRam (12 - 2) ∧
    (run returnProg 52 ⟨0, 0, retRam⟩ 0).1.ram 2 = retRam (12 - 3) ∧
    (run returnProg 52 ⟨0, 0, retRam⟩ 0).1.ram 1 = retRam (12 - 4) ∧
    (run returnProg 52 ⟨0, 0, retRam⟩ 0).2 = (retRam (12 - 5)).toNat :=
  C6_return_frame_teardown ⟨0, 0⟩ retRam 0 0 13 12 7
    (by decide) (by decide) (by decide) (by decide) rfl rfl rfl

/-- Verification apparatus: the base address denoted by each non-constant
segment in a given machine state (pointer-indirect segments dereference
registers 1..4; temp, static and pointer have fixed bases 5, 16 and 3,
mirroring the dictionaries of VMPushPopTranslator). -/
def segBase (seg : String) (ram : Nat → Int) : Option Int :=
  if seg = "local" then some (ram 1)
  else if seg = "argument" then some (ram 2)
  else if seg = "this" then some (ram 3)
  else if seg = "that" then some (ram 4)
  else if seg = "pointer" then some 3
  else if seg = "temp" then some 5
  else if seg = "static" then some 16
  else none

/-- Decoded pop emission for a pointer-indirect segment with base pointer r. -/
def popProgI (r n : Nat) : List Instr :=
  [.Ains (.sym ['S','P']), .Cins .AM .cMminus1 .jnull, .Cins .D .cM .jnull,
   .Ains (.sym ['R','5']), .Cins .M .cD .jnull,
   .Ains (.num r), .Cins .D .cM .jnull,
   .Ains (.num n), .Cins .D .cDplusA .jnull,
   .Ains (.sym ['R','6']), .Cins .M .cD .jnull,
   .Ains (.sym ['R','5']), .Cins .D .cM .jnull,
   .Ains (.sym ['R','6']), .Cins .A .cM .jnull, .Cins .M .cD .jnull]

/-- Decoded pop emission for a fixed-base segment with base b. -/
def popProgD (b n : Nat) : List Instr :=
  [.Ains (.sym ['S','P']), .Cins .AM .cMminus1 .jnull, .Cins .D .cM .jnull,
   .Ains (.sym ['R','5']), .Cins .M .cD .jnull,
   .Ains (.num b), .Cins .D .cA .jnull,
   .Ains (.num n), .Cins .D .cDplusA .jnull,
   .Ains (.sym ['R','6']), .Cins .M .cD .jnull,
   .Ains (.sym ['R','5']), .Cins .D .cM .jnull,
   .Ains (.sym ['R','6']), .Cins .A .cM .jnull, .Cins .M .cD .jnull]

/-- Executing the pop emission for a pointer-indirect segment stores the popped
value in RAM[5], the destination address in RAM[6], writes the popped value at
the destination, and decrements SP. -/
theorem run_popI (r n sp : Nat) (base : Int) (ram : Nat → Int) (A0 D0 : Int)
    (hr1 : 1 ≤ r) (hr4 : r ≤ 4)
    (hsp : ram 0 = sp) (hbase : ram r = base) (h2 : 2 ≤ sp)
    (ht0 : (base + n).toNat ≠ 0) (ht6 : (base + n).toNat ≠ 6) :
    (run (popProgI r n) 16 ⟨A0, D0, ram⟩ 0).1.ram 5 = ram (sp - 1) ∧
    (run (popProgI r n) 16 ⟨A0, D0, ram⟩ 0).1.ram 6 = base + n ∧
    (run (popProgI r n) 16 ⟨A0, D0, ram⟩ 0).1.ram ((base + n).toNat) = ram (sp - 1) ∧
    (run (popProgI r n) 16 ⟨A0, D0, ram⟩ 0).1.ram 0 = (sp : Int) - 1 := by
  obtain ⟨gsp, q2, hr0, hr5⟩ :
      ((sp : Int) - 1).toNat = sp - 1 ∧ (sp - 1 ≠ 0) ∧ r ≠ 0 ∧ r ≠ 5 := by omega
  have h0t : ¬(0 = (base + n).toNat) := fun h => ht0 h.symm
  have h6t : ¬(6 = (base + n).toNat) := fun h => ht6 h.symm
  generalize hres : run (popProgI r n) 16 ⟨A0, D0, ram⟩ 0 = res
  simp [run, step, resolveA, predefSym, labelIdx, cmpVal, applyDst, jmpTaken, wr, Mach.M,
    hsp, hbase, popProgI, gsp, q2, hr0, hr5, h0t, h6t, ht0, ht6] at hres
  subst hres
  refine ⟨?_, ?_, ?_, ?_⟩ <;>
    simp [wr, q2, hr0, hr5, h0t, h6t, ht0, ht6]

/-- Executing the pop emission for a fixed-base segment stores the popped
value in RAM[5], the destination address in RAM[6], writes the popped value at
the destination, and decrements SP. -/
theorem run_popD (b n sp : Nat) (ram : Nat → Int) (A0 D0 : Int)
    (hsp : ram 0 = sp) (h2 : 2 ≤ sp)
    (ht0 : ((b : Int) + n).toNat ≠ 0) (ht6 : ((b : Int) + n).toNat ≠ 6) :
    (run (popProgD b n) 16 ⟨A0, D0, ram⟩ 0).1.ram 5 = ram (sp - 1) ∧
    (run (popProgD b n) 16 ⟨A0, D0, ram⟩ 0).1.ram 6 = (b : Int) + n ∧
    (run (popProgD b n) 16 ⟨A0, D0, ram⟩ 0).1.ram (((b : Int) + n).toNat) = ram (sp - 1) ∧
    (run (popProgD b n) 16 ⟨A0, D0, ram⟩ 0).1.ram 0 = (sp : Int) - 1 := by
  obtain ⟨gsp, q2⟩ :
      ((sp : Int) - 1).toNat = sp - 1 ∧ (sp - 1 ≠ 0) := by omega
  have h0t : ¬(0 = ((b : Int) + n).toNat) := fun h => ht0 h.symm
  have h6t : ¬(6 = ((b : Int) + n).toNat) := fun h => ht6 h.symm
  generalize hres : run (popProgD b n) 16 ⟨A0, D0, ram⟩ 0 = res
  simp [run, step, resolveA, predefSym, labelIdx, cmpVal, applyDst, jmpTaken, wr, Mach.M,
    hsp, popProgD, gsp, q2, h0t, h6t, ht0, ht6] at hres
  subst hres
  refine ⟨?_, ?_, ?_, ?_⟩ <;>
    simp [wr, q2, h0t, h6t, ht0, ht6]

theorem decodeLines_mid (pre post : List String) (s : String) (ia ib : List Instr)
    (i : Instr) (hpre : decodeLines pre = some ia) (hs : decode s = some i)
    (hpost : decodeLines post = some ib) :
    decodeLines (pre ++ s :: post) = some (ia ++ i :: ib) :=
  decodeLines_append hpre (decodeLines_cons hs hpost)

/-- The decoded instruction prefix shared by every pop emission. -/
def popPre : List Instr :=
  [.Ains (.sym ['S','P']), .Cins .AM .cMminus1 .jnull, .Cins .D .cM .jnull,
   .Ains (.sym ['R','5']), .Cins .M .cD .jnull]

/-- The decoded instruction suffix shared by every pop emission. -/
def popPost : List Instr :=
  [.Cins .D .cDplusA .jnull,
   .Ains (.sym ['R','6']), .Cins .M .cD .jnull,
   .Ains (.sym ['R','5']), .Cins .D .cM .jnull,
   .Ains (.sym ['R','6']), .Cins .A .cM .jnull, .Cins .M .cD .jnull]

/-- C10: for every `pop segment i` over a non-constant segment, the emitted
assembly stores the popped value in RAM[5] (register R5) and the computed
destination address in RAM[6] (register R6) as scratch — so every pop
overwrites temp-segment slots 0 and 1 — and the emission never references the
reserved scratch registers R13, R14 or R15. -/
theorem C10_pop_scratch_registers (cmd : VMCommand) (seg idx : String) (n : Nat)
    (base : Int) (ram : Nat → Int) (A0 D0 : Int) (sp : Nat)
    (hop : cmd.operation = "pop")
    (hseg : cmd.segment = some seg)
    (hidx : cmd.index = some idx)
    (hn : digitsVal idx.data = some n)
    (hsegs : seg = "local" ∨ seg = "argument" ∨ seg = "this" ∨ seg = "that" ∨
             seg = "pointer" ∨ seg = "temp" ∨ seg = "static")
    (hbase : segBase seg ram = some base)
    (hsp : ram 0 = sp) (h2 : 2 ≤ sp)
    (ht0 : (base + n).toNat ≠ 0) (ht6 : (base + n).toNat ≠ 6) :
    ∃ lines prog,
      VMPushPopTranslator.translate cmd = some lines ∧
      decodeLines lines = some prog ∧
      "@R5" ∈ lines ∧ "@R6" ∈ lines ∧
      (∀ s ∈ lines, s ≠ "@R13" ∧ s ≠ "@R14" ∧ s ≠ "@R15") ∧
      ((run prog 16 ⟨A0, D0, ram⟩ 0).1.ram 5 = ram (sp - 1) ∧
       (run prog 16 ⟨A0, D0, ram⟩ 0).1.ram 6 = base + n ∧
       (run prog 16 ⟨A0, D0, ram⟩ 0).1.ram ((base + n).toNat) = ram (sp - 1) ∧
       (run prog 16 ⟨A0, D0, ram⟩ 0).1.ram 0 = (sp : Int) - 1) := by
  rcases hsegs with rfl | rfl | rfl | rfl | rfl | rfl | rfl <;>
    simp [segBase] at hbase
  case inl =>
    refine ⟨["@SP", "AM=M-1", "D=M", "@R5", "M=D", "@1", "D=M", "@" ++ idx, "D=D+A",
             "@R6", "M=D", "@R5", "D=M", "@R6", "A=M", "M=D"], popProgI 1 n,
      ?_, ?_, by simp, by simp, ?_, ?_⟩
    · simp [VMPushPopTranslator.translate, hseg, hidx, hop,
        VMPushPopTranslator.load_base_address_instructions_for,
        VMPushPopTranslator.VIRTUAL_MEMORY_SEGMENTS,
        VMPushPopTranslator.load_referenced_value_in_D_instructions,
        VMPushPopTranslator.store_top_of_stack_in_D_instructions,
        VMPushPopTranslator.store_top_of_stack_first_temp_register_instructions,
        VMPushPopTranslator.add_index_to_base_address_in_D_instructions,
        VMPushPopTranslator.store_target_address_in_second_temp_register_instructions,
        VMPushPopTranslator.set_target_address_to_value_instructions]
    · exact decodeLines_mid ["@SP", "AM=M-1", "D=M", "@R5", "M=D", "@1", "D=M"]
        ["D=D+A", "@R6", "M=D", "@R5", "D=M", "@R6", "A=M", "M=D"] ("@" ++ idx)
        (popPre ++ [.Ains (.num 1), .Cins .D .cM .jnull]) popPost (.Ains (.num n))
        (by decide) (decode_at_num idx n hn) (by decide)
    · intro s hs
      simp only [List.mem_cons, List.not_mem_nil, or_false] at hs
      rcases hs with rfl|rfl|rfl|rfl|rfl|rfl|rfl|rfl|rfl|rfl|rfl|rfl|rfl|rfl|rfl|rfl
      all_goals first
        | exact at_num_ne_scratch idx n hn
        | exact ⟨by decide, by decide, by decide⟩
    · exact run_popI 1 n sp base ram A0 D0 (by omega) (by omega) hsp hbase h2 ht0 ht6
  case inr.inl =>
    refine ⟨["@SP", "AM=M-1", "D=M", "@R5", "M=D", "@2", "D=M", "@" ++ idx, "D=D+A",
             "@R6", "M=D", "@R5", "D=M", "@R6", "A=M", "M=D"], popProgI 2 n,
      ?_, ?_, by simp, by simp, ?_, ?_⟩
    · simp [VMPushPopTranslator.translate, hseg, hidx, hop,
        VMPushPopTranslator.load_base_address_instructions_for,
        VMPushPopTranslator.VIRTUAL_MEMORY_SEGMENTS,
        VMPushPopTranslator.load_referenced_value_in_D_instructions,
        VMPushPopTranslator.store_top_of_stack_in_D_instructions,
        VMPushPopTranslator.store_top_of_stack_first_temp_register_instructions,
        VMPushPopTranslator.add_index_to_base_address_in_D_instructions,
        VMPushPopTranslator.store_target_address_in_second_temp_register_instructions,
        VMPushPopTranslator.set_target_address_to_value_instructions]
    · exact decodeLines_mid ["@SP", "AM=M-1", "D=M", "@R5", "M=D", "@2", "D=M"]
        ["D=D+A", "@R6", "M=D", "@R5", "D=M", "@R6", "A=M", "M=D"] ("@" ++ idx)
        (popPre ++ [.Ains (.num 2), .Cins .D .cM .jnull]) popPost (.Ains (.num n))
        (by decide) (decode_at_num idx n hn) (by decide)
    · intro s hs
      simp only [List.mem_cons, List.not_mem_nil, or_false] at hs
      rcases hs with rfl|rfl|rfl|rfl|rfl|rfl|rfl|rfl|rfl|rfl|rfl|rfl|rfl|rfl|rfl|rfl
      all_goals first
        | exact at_num_ne_scratch idx n hn
        | exact ⟨by decide, by decide, by decide⟩
    · exact run_popI 2 n sp base ram A0 D0 (by omega) (by omega) hsp hbase h2 ht0 ht6
  case inr.inr.inl =>
    refine ⟨["@SP", "AM=M-1", "D=M", "@R5", "M=D", "@3", "D=M", "@" ++ idx, "D=D+A",
             "@R6", "M=D", "@R5", "D=M", "@R6", "A=M", "M=D"], popProgI 3 n,
      ?_, ?_, by simp, by simp, ?_, ?_⟩
    · simp [VMPushPopTranslator.translate, hseg, hidx, hop,
        VMPushPopTranslator.load_base_address_instructions_for,
        VMPushPopTranslator.VIRTUAL_MEMORY_SEGMENTS,
        VMPushPopTranslator.load_referenced_value_in_D_instructions,
        VMPushPopTranslator.store_top_of_stack_in_D_instructions,
        VMPushPopTranslator.store_top_of_stack_first_temp_register_instructions,
        VMPushPopTranslator.add_index_to_base_address_in_D_instructions,
        VMPushPopTranslator.store_target_address_in_second_temp_register_instructions,
        VMPushPopTranslator.set_target_address_to_value_instructions]
    · exact decodeLines_mid ["@SP", "AM=M-1", "D=M", "@R5", "M=D", "@3", "D=M"]
        ["D=D+A", "@R6", "M=D", "@R5", "D=M", "@R6", "A=M", "M=D"] ("@" ++ idx)
        (popPre ++ [.Ains (.num 3), .Cins .D .cM .jnull]) popPost (.Ains (.num n))
        (by decide) (decode_at_num idx n hn) (by decide)
    · intro s hs
      simp only [List.mem_cons, List.not_mem_nil, or_false] at hs
      rcases hs with rfl|rfl|rfl|rfl|rfl|rfl|rfl|rfl|rfl|rfl|rfl|rfl|rfl|rfl|rfl|rfl
      all_goals first
        | exact at_num_ne_scratch idx n hn
        | exact ⟨by decide, by decide, by decide⟩
    · exact run_popI 3 n sp base ram A0 D0 (by omega) (by omega) hsp hbase h2 ht0 ht6
  case inr.inr.inr.inl =>
    refine ⟨["@SP", "AM=M-1", "D=M", "@R5", "M=D", "@4", "D=M", "@" ++ idx, "D=D+A",
             "@R6", "M=D", "@R5", "D=M", "@R6", "A=M", "M=D"], popProgI 4 n,
      ?_, ?_, by simp, by simp, ?_, ?_⟩
    · simp [VMPushPopTranslator.translate, hseg, hidx, hop,
        VMPushPopTranslator.load_base_address_instructions_for,
        VMPushPopTranslator.VIRTUAL_MEMORY_SEGMENTS,
        VMPushPopTranslator.load_referenced_value_in_D_instructions,
        VMPushPopTranslator.store_top_of_stack_in_D_instructions,
        VMPushPopTranslator.store_top_of_stack_first_temp_register_instructions,
        VMPushPopTranslator.add_index_to_base_address_in_D_instructions,
        VMPushPopTranslator.store_target_address_in_second_temp_register_instructions,
        VMPushPopTranslator.set_target_address_to_value_instructions]
    · exact decodeLines_mid ["@SP", "AM=M-1", "D=M", "@R5", "M=D", "@4", "D=M"]
        ["D=D+A", "@R6", "M=D", "@R5", "D=M", "@R6", "A=M", "M=D"] ("@" ++ idx)
        (popPre ++ [.Ains (.num 4), .Cins .D .cM .jnull]) popPost (.Ains (.num n))
        (by decide) (decode_at_num idx n hn) (by decide)
    · intro s hs
      simp only [List.mem_cons, List.not_mem_nil, or_false] at hs
      rcases hs with rfl|rfl|rfl|rfl|rfl|rfl|rfl|rfl|rfl|rfl|rfl|rfl|rfl|rfl|rfl|rfl
      all_goals first
        | exact at_num_ne_scratch idx n hn
        | exact ⟨by decide, by decide, by decide⟩
    · exact run_popI 4 n sp base ram A0 D0 (by omega) (by omega) hsp hbase h2 ht0 ht6
  case inr.inr.inr.inr.inl =>
    subst hbase
    refine ⟨["@SP", "AM=M-1", "D=M", "@R5", "M=D", "@3", "D=A", "@" ++ idx, "D=D+A",
             "@R6", "M=D", "@R5", "D=M", "@R6", "A=M", "M=D"], popProgD 3 n,
      ?_, ?_, by simp, by simp, ?_, ?_⟩
    · simp [VMPushPopTranslator.translate, hseg, hidx, hop,
        VMPushPopTranslator.load_base_address_instructions_for,
        VMPushPopTranslator.VIRTUAL_MEMORY_SEGMENTS,
        VMPushPopTranslator.HOST_SEGMENTS,
        VMPushPopTranslator.POINTER_SEGMENT_BASE_ADDRESS,
        VMPushPopTranslator.load_value_in_D_instructions,
        VMPushPopTranslator.store_top_of_stack_in_D_instructions,
        VMPushPopTranslator.store_top_of_stack_first_temp_register_instructions,
        VMPushPopTranslator.add_index_to_base_address_in_D_instructions,
        VMPushPopTranslator.store_target_address_in_second_temp_register_instructions,
        VMPushPopTranslator.set_target_address_to_value_instructions]
    · exact decodeLines_mid ["@SP", "AM=M-1", "D=M", "@R5", "M=D", "@3", "D=A"]
        ["D=D+A", "@R6", "M=D", "@R5", "D=M", "@R6", "A=M", "M=D"] ("@" ++ idx)
        (popPre ++ [.Ains (.num 3), .Cins .D .cA .jnull]) popPost (.Ains (.num n))
        (by decide) (decode_at_num idx n hn) (by decide)
    · intro s hs
      simp only [List.mem_cons, List.not_mem_nil, or_false] at hs
      rcases hs with rfl|rfl|rfl|rfl|rfl|rfl|rfl|rfl|rfl|rfl|rfl|rfl|rfl|rfl|rfl|rfl
      all_goals first
        | exact at_num_ne_scratch idx n hn
        | exact ⟨by decide, by decide, by decide⟩
    · exact run_popD 3 n sp ram A0 D0 hsp h2 ht0 ht6
  case inr.inr.inr.inr.inr.inl =>
    subst hbase
    refine ⟨["@SP", "AM=M-1", "D=M", "@R5", "M=D", "@5", "D=A", "@" ++ idx, "D=D+A",
             "@R6", "M=D", "@R5", "D=M", "@R6", "A=M", "M=D"], popProgD 5 n,
      ?_, ?_, by simp, by simp, ?_, ?_⟩
    · simp [VMPushPopTranslator.translate, hseg, hidx, hop,
        VMPushPopTranslator.load_base_address_instructions_for,
        VMPushPopTranslator.VIRTUAL_MEMORY_SEGMENTS,
        VMPushPopTranslator.HOST_SEGMENTS,
        VMPushPopTranslator.load_value_in_D_instructions,
        VMPushPopTranslator.store_top_of_stack_in_D_instructions,
        VMPushPopTranslator.store_top_of_stack_first_temp_register_instructions,
        VMPushPopTranslator.add_index_to_base_address_in_D_instructions,
        VMPushPopTranslator.store_target_address_in_second_temp_register_instructions,
        VMPushPopTranslator.set_target_address_to_value_instructions]
    · exact decodeLines_mid ["@SP", "AM=M-1", "D=M", "@R5", "M=D", "@5", "D=A"]
        ["D=D+A", "@R6", "M=D", "@R5", "D=M", "@R6", "A=M", "M=D"] ("@" ++ idx)
        (popPre ++ [.Ains (.num 5), .Cins .D .cA .jnull]) popPost (.Ains (.num n))
        (by decide) (decode_at_num idx n hn) (by decide)
    · intro s hs
      simp only [List.mem_cons, List.not_mem_nil, or_false] at hs
      rcases hs with rfl|rfl|rfl|rfl|rfl|rfl|rfl|rfl|rfl|rfl|rfl|rfl|rfl|rfl|rfl|rfl
      all_goals first
        | exact at_num_ne_scratch idx n hn
        | exact ⟨by decide, by decide, by decide⟩
    · exact run_popD 5 n sp ram A0 D0 hsp h2 ht0 ht6
  case inr.inr.inr.inr.inr.inr =>
    subst hbase
    refine ⟨["@SP", "AM=M-1", "D=M", "@R5", "M=D", "@16", "D=A", "@" ++ idx, "D=D+A",
             "@R6", "M=D", "@R5", "D=M", "@R6", "A=M", "M=D"], popProgD 16 n,
      ?_, ?_, by simp, by simp, ?_, ?_⟩
    · simp [VMPushPopTranslator.translate, hseg, hidx, hop,
        VMPushPopTranslator.load_base_address_instructions_for,
        VMPushPopTranslator.VIRTUAL_MEMORY_SEGMENTS,
        VMPushPopTranslator.HOST_SEGMENTS,
        VMPushPopTranslator.load_value_in_D_instructions,
        VMPushPopTranslator.store_top_of_stack_in_D_instructions,
        VMPushPopTranslator.store_top_of_stack_first_temp_register_instructions,
        VMPushPopTranslator.add_index_to_base_address_in_D_instructions,
        VMPushPopTranslator.store_target_address_in_second_temp_register_instructions,
        VMPushPopTranslator.set_target_address_to_value_instructions]
    · exact decodeLines_mid ["@SP", "AM=M-1", "D=M", "@R5", "M=D", "@16", "D=A"]
        ["D=D+A", "@R6", "M=D", "@R5", "D=M", "@R6", "A=M", "M=D"] ("@" ++ idx)
        (popPre ++ [.Ains (.num 16), .Cins .D .cA .jnull]) popPost (.Ains (.num n))
        (by decide) (decode_at_num idx n hn) (by decide)
    · intro s hs
      simp only [List.mem_cons, List.not_mem_nil, or_false] at hs
      rcases hs with rfl|rfl|rfl|rfl|rfl|rfl|rfl|rfl|rfl|rfl|rfl|rfl|rfl|rfl|rfl|rfl
      all_goals first
        | exact at_num_ne_scratch idx n hn
        | exact ⟨by decide, by decide, by decide⟩
    · exact run_popD 16 n sp ram A0 D0 hsp h2 ht0 ht6

/-- RAM contents for the C10 witness. -/
def popRam : Nat → Int :=
  fun a => if a = 0 then 256 else if a = 1 then 300 else 50 + a

/-- C10 witness: `pop local 2` with LCL = 300 and SP = 256. -/
theorem C10_pop_scratch_registers_witness :
    ∃ lines prog,
      VMPushPopTranslator.translate ⟨"pop local 2"⟩ = some lines ∧
      decodeLines lines = some prog ∧
      "@R5" ∈ lines ∧ "@R6" ∈ lines ∧
      (∀ s ∈ lines, s ≠ "@R13" ∧ s ≠ "@R14" ∧ s ≠ "@R15") ∧
      ((run prog 16 ⟨0, 0, popRam⟩ 0).1.ram 5 = popRam (256 - 1) ∧
       (run prog 16 ⟨0, 0, popRam⟩ 0).1.ram 6 = 300 + (2 : Nat) ∧
       (run prog 16 ⟨0, 0, popRam⟩ 0).1.ram ((300 + (2 : Nat) : Int).toNat) = popRam (256 - 1) ∧
       (run prog 16 ⟨0, 0, popRam⟩ 0).1.ram 0 = (256 : Nat) - 1) :=
  C10_pop_scratch_registers ⟨"pop local 2"⟩ "local" "2" 2 300 popRam 0 0 256
    (by decide) (by decide) (by decide) (by decide) (Or.inl rfl)
    (by decide) (by decide) (by decide) (by decide) (by decide)

/-- The decoded comparison emission, parameterized by the label identifier
characters and the jump directive. -/
def compProg (id : List Char) (j : Jmp) : List Instr :=
  [.Ains (.sym ['S','P']), .Cins .AM .cMminus1 .jnull, .Cins .D .cM .jnull,
   .Ains (.sym ['S','P']), .Cins .AM .cMminus1 .jnull, .Cins .D .cMminusD .jnull,
   .Ains (.sym ('N':: 'O':: 'T':: '_'::id)), .Cins .nodest .cD j,
   .Ains (.sym ['S','P']), .Cins .A .cM .jnull, .Cins .M .cNeg1 .jnull,
   .Ains (.sym ('I':: 'N':: 'C':: '_':: 'S':: 'T':: 'A':: 'C':: 'K':: '_':: 'P':: 'O':: 'I':: 'N':: 'T':: 'E':: 'R':: '_'::id)),
   .Cins .nodest .c0 .JMP,
   .Lins ('N':: 'O':: 'T':: '_'::id),
   .Ains (.sym ['S','P']), .Cins .A .cM .jnull, .Cins .M .c0 .jnull,
   .Lins ('I':: 'N':: 'C':: '_':: 'S':: 'T':: 'A':: 'C':: 'K':: '_':: 'P':: 'O':: 'I':: 'N':: 'T':: 'E':: 'R':: '_'::id),
   .Ains (.sym ['S','P']), .Cins .M .cMplus1 .jnull]

theorem decode_not_label (cs : List Char) :
    decode ("(NOT_" ++ ⟨cs⟩ ++ ")") = some (.Lins ('N':: 'O':: 'T':: '_'::cs)) := by
  show decodeChars ('(' :: 'N':: 'O':: 'T':: '_':: (cs ++ [')'])) = _
  simp only [decodeChars, Option.some.injEq, Instr.Lins.injEq]
  rw [show ('N':: 'O':: 'T':: '_':: (cs ++ [')']) : List Char) =
      ('N':: 'O':: 'T':: '_'::cs) ++ [')'] from rfl]
  exact List.dropLast_concat

theorem decode_inc_label (cs : List Char) :
    decode ("(INC_STACK_POINTER_" ++ ⟨cs⟩ ++ ")") =
      some (.Lins ('I':: 'N':: 'C':: '_':: 'S':: 'T':: 'A':: 'C':: 'K':: '_':: 'P':: 'O':: 'I':: 'N':: 'T':: 'E':: 'R':: '_'::cs)) := by
  show decodeChars ('(' :: 'I':: 'N':: 'C':: '_':: 'S':: 'T':: 'A':: 'C':: 'K':: '_':: 'P':: 'O':: 'I':: 'N':: 'T':: 'E':: 'R':: '_':: (cs ++ [')'])) = _
  simp only [decodeChars, Option.some.injEq, Instr.Lins.injEq]
  rw [show ('I':: 'N':: 'C':: '_':: 'S':: 'T':: 'A':: 'C':: 'K':: '_':: 'P':: 'O':: 'I':: 'N':: 'T':: 'E':: 'R':: '_':: (cs ++ [')']) : List Char) =
      ('I':: 'N':: 'C':: '_':: 'S':: 'T':: 'A':: 'C':: 'K':: '_':: 'P':: 'O':: 'I':: 'N':: 'T':: 'E':: 'R':: '_'::cs) ++ [')'] from rfl]
  exact List.dropLast_concat

/-- The comparison emission decodes to `compProg`. -/
theorem decode_comp_lines (ident : String) (jd : String) (j : Jmp)
    (hjd : decode ("D;" ++ jd) = some (.Cins .nodest .cD j)) :
    decodeLines
      ["@SP", "AM=M-1", "D=M", "@SP", "AM=M-1", "D=M-D",
       "@NOT_" ++ ident, "D;" ++ jd, "@SP", "A=M", "M=-1",
       "@INC_STACK_POINTER_" ++ ident, "0;JMP",
       "(NOT_" ++ ident ++ ")", "@SP", "A=M", "M=0",
       "(INC_STACK_POINTER_" ++ ident ++ ")", "@SP", "M=M+1"] =
      some (compProg ident.data j) := by
  obtain ⟨cs⟩ := ident
  exact decodeLines_cons (by decide) (decodeLines_cons (by decide) (decodeLines_cons (by decide)
    (decodeLines_cons (by decide) (decodeLines_cons (by decide) (decodeLines_cons (by decide)
    (decodeLines_cons rfl (decodeLines_cons hjd (decodeLines_cons (by decide)
    (decodeLines_cons (by decide) (decodeLines_cons (by decide) (decodeLines_cons rfl
    (decodeLines_cons (by decide) (decodeLines_cons (decode_not_label cs)
    (decodeLines_cons (by decide) (decodeLines_cons (by decide) (decodeLines_cons (by decide)
    (decodeLines_cons (decode_inc_label cs) (decodeLines_cons (by decide)
    (decodeLines_cons (by decide) rfl)))))))))))))))))))

theorem jmp_null (v : Int) : jmpTaken .jnull v = false := rfl

theorem jmp_jmp (v : Int) : jmpTaken .JMP v = true := rfl

/-- Executing the comparison emission consumes x and y, leaves the truth value
at the new stack top, and decrements SP by one net. -/
theorem run_comp (id : List Char) (j : Jmp) (x y : Int) (sp : Nat)
    (ram : Nat → Int) (A0 D0 : Int)
    (hsp : ram 0 = sp) (h3 : 3 ≤ sp)
    (hx : ram (sp - 2) = x) (hy : ram (sp - 1) = y) :
    (run (compProg id j) 20 ⟨A0, D0, ram⟩ 0).1.ram (sp - 2) =
      (if jmpTaken j (x - y) then 0 else -1) ∧
    (run (compProg id j) 20 ⟨A0, D0, ram⟩ 0).1.ram 0 = (sp : Int) - 1 := by
  obtain ⟨g1, g2, q1, q2, nn, ai, hne, z2, z1⟩ :
      ((sp : Int) - 1).toNat = sp - 1 ∧ ((sp : Int) - 1 - 1).toNat = sp - 2 ∧
      (sp - 1 ≠ 0) ∧ (sp - 2 ≠ 0) ∧ (sp - 1 - 1 = sp - 2) ∧
      ((sp : Int) - 1 - 1 + 1 = (sp : Int) - 1) ∧
      (sp - 1 ≠ sp - 2) ∧ ¬(0 = sp - 2) ∧ ¬(0 = sp - 1) := by omega
  cases hb : jmpTaken j (x - y) <;>
  · generalize hres : run (compProg id j) 20 ⟨A0, D0, ram⟩ 0 = res
    simp [run, step, resolveA, predefSym, labelIdx, cmpVal,
      applyDst, wr, Mach.M, compProg, jmp_null, jmp_jmp,
      hsp, hx, hy, hb, g1, g2, q1, q2, nn, ai, hne, z2, z1] at hres
    subst hres
    constructor <;> simp [wr, q1, q2, hne, nn, ai, z2, z1]

/-- C7: each comparison command pops y then x, computes d = x - y, jumps on
the negated relation (eq to JNE, lt to JGE, gt to JLE), writes -1 when the
relation holds and 0 otherwise, and the common tail increments SP: the net
effect is two values consumed, one truth value pushed. -/
theorem C7_comparison_lowering (st : ArithState) (op : String)
    (hop : op = "eq" ∨ op = "lt" ∨ op = "gt")
    (x y : Int) (sp : Nat) (ram : Nat → Int) (A0 D0 : Int)
    (hsp : ram 0 = sp) (h3 : 3 ≤ sp)
    (hx : ram (sp - 2) = x) (hy : ram (sp - 1) = y) :
    ∃ st' lines prog jd j,
      VMArithmeticTranslator.comp_translation st op = some (st', lines) ∧
      VMArithmeticTranslator.jump_directive op = some jd ∧
      ((op = "eq" ∧ jd = "JNE") ∨ (op = "lt" ∧ jd = "JGE") ∨
       (op = "gt" ∧ jd = "JLE")) ∧
      ("D;" ++ jd) ∈ lines ∧
      decodeLines lines = some prog ∧
      decode ("D;" ++ jd) = some (.Cins .nodest .cD j) ∧
      (run prog 20 ⟨A0, D0, ram⟩ 0).1.ram (sp - 2) =
        (if (op = "eq" ∧ x = y) ∨ (op = "lt" ∧ x < y) ∨ (op = "gt" ∧ y < x)
         then -1 else 0) ∧
      (run prog 20 ⟨A0, D0, ram⟩ 0).1.ram 0 = (sp : Int) - 1 := by
  rcases hop with rfl | rfl | rfl
  · refine ⟨{ st with eq := st.eq + 1 }, _, compProg ("EQ" ++ toString (st.eq + 1)).data .JNE,
      "JNE", .JNE, rfl, rfl, Or.inl ⟨rfl, rfl⟩, by simp,
      decode_comp_lines ("EQ" ++ toString (st.eq + 1)) "JNE" .JNE (by decide),
      by decide, ?_, ?_⟩
    · have h := (run_comp ("EQ" ++ toString (st.eq + 1)).data .JNE x y sp ram A0 D0
        hsp h3 hx hy).1
      rw [h]
      by_cases hxy : x = y
      · subst hxy
        simp [jmpTaken]
      · have hj : jmpTaken Jmp.JNE (x - y) = true := by
          simp [jmpTaken, sub_ne_zero]
          exact hxy
        simp [hj, hxy]
    · exact (run_comp ("EQ" ++ toString (st.eq + 1)).data .JNE x y sp ram A0 D0
        hsp h3 hx hy).2
  · refine ⟨{ st with lt := st.lt + 1 }, _, compProg ("LT" ++ toString (st.lt + 1)).data .JGE,
      "JGE", .JGE, rfl, rfl, Or.inr (Or.inl ⟨rfl, rfl⟩), by simp,
      decode_comp_lines ("LT" ++ toString (st.lt + 1)) "JGE" .JGE (by decide),
      by decide, ?_, ?_⟩
    · have h := (run_comp ("LT" ++ toString (st.lt + 1)).data .JGE x y sp ram A0 D0
        hsp h3 hx hy).1
      rw [h]
      by_cases hxy : x < y
      · have hj : jmpTaken Jmp.JGE (x - y) = false := by
          simp [jmpTaken]
          omega
        simp [hj, hxy]
      · have hj : jmpTaken Jmp.JGE (x - y) = true := by
          simp [jmpTaken]
          omega
        simp [hj, hxy]
    · exact (run_comp ("LT" ++ toString (st.lt + 1)).data .JGE x y sp ram A0 D0
        hsp h3 hx hy).2
  · refine ⟨{ st with gt := st.gt + 1 }, _, compProg ("GT" ++ toString (st.gt + 1)).data .JLE,
      "JLE", .JLE, rfl, rfl, Or.inr (Or.inr ⟨rfl, rfl⟩), by simp,
      decode_comp_lines ("GT" ++ toString (st.gt + 1)) "JLE" .JLE (by decide),
      by decide, ?_, ?_⟩
    · have h := (run_comp ("GT" ++ toString (st.gt + 1)).data .JLE x y sp ram A0 D0
        hsp h3 hx hy).1
      rw [h]
      by_cases hxy : y < x
      · have hj : jmpTaken Jmp.JLE (x - y) = false := by
          simp [jmpTaken]
          omega
        simp [hj, hxy]
      · have hj : jmpTaken Jmp.JLE (x - y) = true := by
          simp [jmpTaken]
          omega
        simp [hj, hxy]
    · exact (run_comp ("GT" ++ toString (st.gt + 1)).data .JLE x y sp ram A0 D0
        hsp h3 hx hy).2

/-- RAM contents for the C7 witness: 17 and 17 on the stack, SP = 258. -/
def compRam : Nat → Int :=
  fun a => if a = 0 then 258 else if a = 256 then 17 else if a = 257 then 17 else 0

/-- C7 witness: `eq` on two equal values 17 writes -1 at the new stack top. -/
theorem C7_comparison_lowering_witness :
    ∃ st' lines prog jd j,
      VMArithmeticTranslator.comp_translation ⟨0, 0, 0⟩ "eq" = some (st', lines) ∧
      VMArithmeticTranslator.jump_directive "eq" = some jd ∧
      (("eq" = "eq" ∧ jd = "JNE") ∨ ("eq" = "lt" ∧ jd = "JGE") ∨
       ("eq" = "gt" ∧ jd = "JLE")) ∧
      ("D;" ++ jd) ∈ lines ∧
      decodeLines lines = some prog ∧
      decode ("D;" ++ jd) = some (.Cins .nodest .cD j) ∧
      (run prog 20 ⟨0, 0, compRam⟩ 0).1.ram (258 - 2) =
        (if ("eq" = "eq" ∧ (17 : Int) = 17) ∨ ("eq" = "lt" ∧ (17 : Int) < 17) ∨
            ("eq" = "gt" ∧ (17 : Int) < 17)
         then -1 else 0) ∧
      (run prog 20 ⟨0, 0, compRam⟩ 0).1.ram 0 = ((258 : Nat) : Int) - 1 :=
  C7_comparison_lowering ⟨0, 0, 0⟩ "eq" (Or.inl rfl) 17 17 258 compRam 0 0
    rfl (by decide) rfl rfl

/-- C1: for every translator state, `call f n` emits only the single line
`call` — no return-address push, no saved-pointer pushes, no `ARG`/`LCL`
setup, no jump, no return label.  This contradicts the claimed call-frame
emission; the code is an unfinished stub. -/
theorem C1_call_emits_stub (fst : FuncState) :
    VMFunctionTranslator.translate fst ⟨"call Sys.init 0"⟩ =
      some ({ fst with call_count := fst.call_count + 1 }, ["call"]) ∧
    VMFunctionTranslator.translate ⟨0, 0⟩ ⟨"call Sys.init 0"⟩ =
      some (⟨0, 1⟩, ["call"]) := by
  exact ⟨rfl, by decide⟩

/-- C2: directory translation never emits a bootstrap.  A directory holding a
single file with `push constant 7` produces one output file whose lines are
exactly the push emission: they do not set SP to 256 and never reference
`Sys.init`, and the very first line is `@7`, not a bootstrap. -/
theorem C2_no_bootstrap :
    translateDirectory [("Main.vm", ["push constant 7\n"])] =
      some [("Main.asm", ["@7", "D=A", "@SP", "A=M", "M=D", "@SP", "M=M+1"])] ∧
    "@256" ∉ ["@7", "D=A", "@SP", "A=M", "M=D", "@SP", "M=M+1"] ∧
    "@Sys.init" ∉ ["@7", "D=A", "@SP", "A=M", "M=D", "@SP", "M=M+1"] ∧
    (["@7", "D=A", "@SP", "A=M", "M=D", "@SP", "M=M+1"].headD "") ≠ "@256" := by
  decide

/-- C3: `push static 0` and `pop static 0` are lowered through the hard-coded
numeric base 16 (`@16` plus the index), not through an assembler symbol
`<fileBase>.<index>`; the emission takes no file context at all, so every
file gets the same cells and the claimed per-file symbol `Foo.0` never
appears. -/
theorem C3_static_uses_base_16 :
    VMPushPopTranslator.translate ⟨"push static 0"⟩ =
      some ["@16", "D=A", "@0", "D=D+A", "A=D", "D=M",
            "@SP", "A=M", "M=D", "@SP", "M=M+1"] ∧
    VMPushPopTranslator.translate ⟨"pop static 0"⟩ =
      some ["@SP", "AM=M-1", "D=M", "@R5", "M=D", "@16", "D=A", "@0", "D=D+A",
            "@R6", "M=D", "@R5", "D=M", "@R6", "A=M", "M=D"] ∧
    "@Foo.0" ∉ ["@16", "D=A", "@0", "D=D+A", "A=D", "D=M",
                "@SP", "A=M", "M=D", "@SP", "M=M+1"] ∧
    "@Foo.0" ∉ ["@SP", "AM=M-1", "D=M", "@R5", "M=D", "@16", "D=A", "@0", "D=D+A",
                "@R6", "M=D", "@R5", "D=M", "@R6", "A=M", "M=D"] := by
  decide

/-- The comparison emission a fresh translator produces for `eq`. -/
def eqLines : List String :=
  ["@SP", "AM=M-1", "D=M", "@SP", "AM=M-1", "D=M-D", "@NOT_EQ1", "D;JNE",
   "@SP", "A=M", "M=-1", "@INC_STACK_POINTER_EQ1", "0;JMP", "(NOT_EQ1)",
   "@SP", "A=M", "M=0", "(INC_STACK_POINTER_EQ1)", "@SP", "M=M+1"]

/-- C4: the per-kind comparison counters restart for every input file because
the driver constructs fresh translators inside its per-file loop; two files
each containing `eq` both emit the labels `(NOT_EQ1)` and
`(INC_STACK_POINTER_EQ1)`, so the labels of the translation unit collide
instead of being unique. -/
theorem C4_comparison_labels_collide_across_files :
    translateDirectory [("A.vm", ["eq\n"]), ("B.vm", ["eq\n"])] =
      some [("A.asm", eqLines), ("B.asm", eqLines)] ∧
    "(NOT_EQ1)" ∈ eqLines ∧ "(INC_STACK_POINTER_EQ1)" ∈ eqLines ∧
    (eqLines ++ eqLines).count "(NOT_EQ1)" = 2 := by
  decide

/-- C5: branch labels are emitted without any function or file mangling:
`label LOOP` emits `(LOOP)` — not `(f$LOOP)` — and a program declaring
`label L` inside two different functions emits the same label `(L)` twice,
with `goto L` targeting the unmangled `@L`. -/
theorem C5_labels_not_mangled :
    VMBranchingTranslator.translate ⟨"label LOOP"⟩ = some ["(LOOP)"] ∧
    translateFile ["function f 0\n", "label L\n", "goto L\n",
                   "function g 0\n", "label L\n"] =
      some ["(f)", "@0", "D=A", "(LOOP.ADD_LOCALS.1)", "@SP", "A=M", "M=0",
            "@SP", "M=M+1", "D=D-1", "@LOOP.ADD_LOCALS.1", "D;JNE", "(L)",
            "@L", "0;JMP", "(g)", "@0", "D=A", "(LOOP.ADD_LOCALS.2)", "@SP",
            "A=M", "M=0", "@SP", "M=M+1", "D=D-1", "@LOOP.ADD_LOCALS.2",
            "D;JNE", "(L)"] ∧
    (["(f)", "@0", "D=A", "(LOOP.ADD_LOCALS.1)", "@SP", "A=M", "M=0",
      "@SP", "M=M+1", "D=D-1", "@LOOP.ADD_LOCALS.1", "D;JNE", "(L)",
      "@L", "0;JMP", "(g)", "@0", "D=A", "(LOOP.ADD_LOCALS.2)", "@SP",
      "A=M", "M=0", "@SP", "M=M+1", "D=D-1", "@LOOP.ADD_LOCALS.2",
      "D;JNE", "(L)"].count "(L)") = 2 := by
  decide

/-- The machine state at entry of the C8 run: SP = 256, empty stack. -/
def funRam : Nat → Int := fun a => if a = 0 then 256 else 0

/-- C8: `function f 0` emits a do-while loop that pushes a zero before
testing the counter, so with k = 0 locals it still pushes: after 25 steps
the emitted code has already pushed two zeros (SP = 258), D has run down to
-2, and control sits inside the loop (pc = 7) rather than past its end —
the claimed `no local is pushed, net SP change 0` behaviour is violated. -/
theorem C8_function_zero_locals_pushes :
    VMFunctionTranslator.translate ⟨0, 0⟩ ⟨"function f 0"⟩ =
      some (⟨1, 0⟩,
        ["(f)", "@0", "D=A", "(LOOP.ADD_LOCALS.1)", "@SP", "A=M", "M=0",
         "@SP", "M=M+1", "D=D-1", "@LOOP.ADD_LOCALS.1", "D;JNE"]) ∧
    ∃ prog,
      decodeLines ["(f)", "@0", "D=A", "(LOOP.ADD_LOCALS.1)", "@SP", "A=M",
                   "M=0", "@SP", "M=M+1", "D=D-1", "@LOOP.ADD_LOCALS.1",
                   "D;JNE"] = some prog ∧
      (run prog 25 ⟨0, 0, funRam⟩ 0).1.ram 0 = 258 ∧
      (run prog 25 ⟨0, 0, funRam⟩ 0).1.D = -2 ∧
      (run prog 25 ⟨0, 0, funRam⟩ 0).2 = 7 := by
  refine ⟨by decide,
    ⟨[.Lins ['f'], .Ains (.num 0), .Cins .D .cA .jnull,
      .Lins ['L','O','O','P','.','A','D','D','_','L','O','C','A','L','S','.','1'],
      .Ains (.sym ['S','P']), .Cins .A .cM .jnull, .Cins .M .c0 .jnull,
      .Ains (.sym ['S','P']), .Cins .M .cMplus1 .jnull, .Cins .D .cDminus1 .jnull,
      .Ains (.sym ['L','O','O','P','.','A','D','D','_','L','O','C','A','L','S','.','1']),
      .Cins .nodest .cD .JNE],
     by decide, by decide, by decide, by decide⟩⟩

/-- C9 counterexample: a mal-formed command produces no ParseError and does
not abort the run.  `push constant abc` (numeric parse failure) is accepted
as a valid command and silently translated to assembly loading the symbol
`abc`, and the run continues to translate the following command. -/
theorem C9_parse_error_counterexample :
    has_valid_current_command ⟨"push constant abc\n"⟩ = true ∧
    VMPushPopTranslator.translate ⟨"push constant abc\n"⟩ =
      some ["@abc", "D=A", "@SP", "A=M", "M=D", "@SP", "M=M+1"] ∧
    translateFile ["push constant abc\n", "push constant 7\n"] =
      some ["@abc", "D=A", "@SP", "A=M", "M=D", "@SP", "M=M+1",
            "@7", "D=A", "@SP", "A=M", "M=D", "@SP", "M=M+1"] := by
  decide

/-- C9 (amended): parsing rejects nothing.  Every line other than the bare
newline and lines starting with `//` is classified as a valid command and
dispatched to the lowerings; a numeric parse failure is silently emitted as
a symbol reference, and an unknown opcode crashes as an unhandled lookup
(none), without any ParseError value or line number. -/
theorem C9_malformed_commands_not_detected (raw : String)
    (hws : raw ≠ "\n") (hcm : raw.data.take 2 ≠ ['/', '/']) :
    has_valid_current_command ⟨raw⟩ = true ∧
    VMPushPopTranslator.translate ⟨"push constant abc"⟩ =
      some ["@abc", "D=A", "@SP", "A=M", "M=D", "@SP", "M=M+1"] ∧
    VMArithmeticTranslator.translate ⟨0, 0, 0⟩ ⟨"blah"⟩ = none := by
  refine ⟨?_, by decide, by decide⟩
  simp [has_valid_current_command, VMCommand.is_whitespace, VMCommand.is_comment,
    hws, hcm]

/-- C9 witness for the amended statement. -/
theorem C9_malformed_commands_not_detected_witness :
    has_valid_current_command ⟨"push constant abc\n"⟩ = true ∧
    VMPushPopTranslator.translate ⟨"push constant abc"⟩ =
      some ["@abc", "D=A", "@SP", "A=M", "M=D", "@SP", "M=M+1"] ∧
    VMArithmeticTranslator.translate ⟨0, 0, 0⟩ ⟨"blah"⟩ = none :=
  C9_malformed_commands_not_detected "push constant abc\n" (by decide) (by decide)
